import Mathlib

/-!
Verification of the update-scheduler, downloader and settings components of
the Python_Win_AutoUpdate repository against its specification.

The Python sources are shallowly embedded as executable Lean definitions:

* `src/scheduler.py` (`UpdateScheduler`): the gate state is a record of the
  three mutable fields read and written by `_check_scheduled_time`,
  `trigger_now`, `next_check_datetime` and `set_scheduled_time`.  Calendar
  dates are modelled as `Nat` ordinals: the code only ever formats a date
  with `strftime("%Y-%m-%d")` and compares the resulting strings for
  equality, and that rendering is injective on dates, so date-string
  equality coincides with ordinal equality.  A wall-clock instant carries
  its date ordinal, hour, minute and a `sub` component standing for the
  seconds-and-finer part (`datetime` comparison is lexicographic down to
  microseconds; only its order matters here).

* `src/downloader.py` (`Downloader`): the chunked streaming loop is embedded
  as a recursive function over the list of chunks the origin delivers.  The
  external world is passed in explicitly: the outcome of `requests.get` +
  `raise_for_status` (`none` = a `requests.RequestException`, which covers
  both network failure and a non-success HTTP status), the instant at which
  a concurrent `cancel()` call sets the flag (`cancelAt = some k` means the
  flag is set just before the loop's k-th per-chunk check), and an optional
  chunk index whose `f.write` raises `OSError`.  The destination file is
  modelled as `Option (List Nat)` — `none` when no file exists at the path.

* `src/settings_manager.py` (`SettingsManager._load_settings`): the settings
  file is passed in as `none` (missing) or `some outcome`, where `outcome`
  is what `json.load` produces over the file's contents: a raised
  `UnicodeDecodeError` (bytes not valid UTF-8), a raised `JSONDecodeError`
  (text not valid JSON), or a parsed JSON value (a standard inductive).
  Python dataclasses do not enforce the annotated field types at runtime, so
  `AppSettings(**data)` fails only on a non-mapping argument or an
  unexpected keyword; the embedded constructor mirrors that.

* `verify_download` computes a genuine SHA-256 over the file bytes; the hash
  function is implemented below on `Nat` with explicit reduction mod 2^32.
-/

/-! ## Scheduler data model (src/scheduler.py) -/

/-- A `datetime.time` value as constructed by the scheduler (hour/minute only). -/
structure PyTime where
  hour : Nat
  minute : Nat
deriving DecidableEq, Repr

/-- A wall-clock instant `datetime.now()`: date ordinal, hour, minute and the
seconds-and-finer remainder `sub` (0 = exactly on the minute). -/
structure Now where
  day : Nat
  hour : Nat
  minute : Nat
  sub : Nat
deriving DecidableEq, Repr

/-- The mutable state of `UpdateScheduler`: `_scheduled_time`, `_enabled`,
`_last_check_date` (dates as ordinals, `none` = Python `None`). -/
structure SchedState where
  scheduledTime : Option PyTime
  enabled : Bool
  lastCheckDate : Option Nat
deriving DecidableEq, Repr

namespace UpdateScheduler

/-- Embedding of `UpdateScheduler._check_scheduled_time` (scheduler.py lines
85-105).  Returns the updated state and whether `scheduled_check_triggered`
was emitted.  The early `return`s of the Python body become the `else`-less
branches; the 2-minute window test is verbatim from line 102. -/
def _check_scheduled_time (st : SchedState) (now : Now) : SchedState × Bool :=
  if st.enabled = false ∨ st.scheduledTime = none then (st, false)
  else
    match st.scheduledTime with
    | none => (st, false)
    | some t =>
      if st.lastCheckDate = some now.day then (st, false)
      else
        let scheduled_minutes := t.hour * 60 + t.minute
        let current_minutes := now.hour * 60 + now.minute
        if scheduled_minutes ≤ current_minutes ∧ current_minutes < scheduled_minutes + 2 then
          ({ st with lastCheckDate := some now.day }, true)
        else (st, false)

/-- Embedding of `UpdateScheduler.trigger_now` (scheduler.py lines 119-124):
unconditionally records today's date and emits the signal. -/
def trigger_now (st : SchedState) (now : Now) : SchedState × Bool :=
  ({ st with lastCheckDate := some now.day }, true)

/-- A `datetime` value (date ordinal plus time of day). -/
structure DT where
  day : Nat
  hour : Nat
  minute : Nat
  sub : Nat
deriving DecidableEq, Repr

/-- Python `datetime` comparison: lexicographic on (date, hour, minute, finer). -/
def dtLt (a b : DT) : Bool :=
  decide (a.day < b.day ∨ (a.day = b.day ∧ (a.hour < b.hour ∨ (a.hour = b.hour ∧
    (a.minute < b.minute ∨ (a.minute = b.minute ∧ a.sub < b.sub))))))

/-- Embedding of the `UpdateScheduler.next_check_datetime` property
(scheduler.py lines 39-53).  It reads the state and `now` and returns a value
without mutating anything (the Python body contains no assignment). -/
def next_check_datetime (st : SchedState) (now : Now) : Option DT :=
  if st.enabled = false ∨ st.scheduledTime = none then none
  else
    match st.scheduledTime with
    | none => none
    | some t =>
      let today_scheduled : DT := ⟨now.day, t.hour, t.minute, 0⟩
      if dtLt ⟨now.day, now.hour, now.minute, now.sub⟩ today_scheduled = true ∧
          st.lastCheckDate ≠ some now.day then
        some today_scheduled
      else
        some { today_scheduled with day := today_scheduled.day + 1 }

end UpdateScheduler

/-! ## Python `int()` parsing, as used by `set_scheduled_time` -/

/-- Code points stripped as whitespace by Python `int(str)` (CPython's
Py_UNICODE_ISSPACE, the same predicate as `str.isspace`), from the Unicode
character database. -/
def pyWsCodes : List Nat :=
  [9, 10, 11, 12, 13, 28, 29, 30, 31, 32, 133, 160, 5760, 8192, 8193, 8194,
   8195, 8196, 8197, 8198, 8199, 8200, 8201, 8202, 8232, 8233, 8239, 8287, 12288]

def isPyWs (c : Char) : Bool := pyWsCodes.contains c.toNat

/-- Start code points of the Unicode decimal-digit (category Nd) runs, from
the Unicode character database.  Every Nd character sits in a run of exactly
ten contiguous code points carrying the digit values 0-9 in order, and
distinct starts are at least ten apart, so the lookup below is unambiguous.
Python `int()` accepts exactly these characters as digits. -/
def ndRunStarts : List Nat :=
  [48, 1632, 1776, 1984, 2406, 2534, 2662, 2790,
   2918, 3046, 3174, 3302, 3430, 3558, 3664, 3792,
   3872, 4160, 4240, 6112, 6160, 6470, 6608, 6784,
   6800, 6992, 7088, 7232, 7248, 42528, 43216, 43264,
   43472, 43504, 43600, 44016, 65296, 66720, 68912, 69734,
   69872, 69942, 70096, 70384, 70736, 70864, 71248, 71360,
   71472, 71904, 72016, 72784, 73040, 73120, 92768, 92864,
   93008, 120782, 120792, 120802, 120812, 120822, 123200, 123632,
   125264, 130032]

/-- The decimal value of a Unicode decimal digit, `none` for any other
character (the digit test of Python `int()`). -/
def pyDigitVal (c : Char) : Option Nat :=
  match ndRunStarts.find? (fun s => s ≤ c.toNat && c.toNat < s + 10) with
  | some s => some (c.toNat - s)
  | none => none

/-- Digit run accumulator: after at least one digit has been read, Python
allows a single underscore between two digits. -/
def pyDigitsCore : List Char → Nat → Option Nat
  | [], acc => some acc
  | '_' :: c :: rest, acc =>
    match pyDigitVal c with
    | some d => pyDigitsCore rest (acc * 10 + d)
    | none => none
  | c :: rest, acc =>
    match pyDigitVal c with
    | some d => pyDigitsCore rest (acc * 10 + d)
    | none => none

/-- A nonempty run of Unicode decimal digits (single underscores permitted
between digits), as accepted by Python `int` after sign and whitespace
handling. -/
def pyDigitsVal : List Char → Option Nat
  | [] => none
  | c :: rest =>
    match pyDigitVal c with
    | some d => pyDigitsCore rest d
    | none => none

/-- Splitter for Python `str.split(sep)` with a one-character separator:
splits at every occurrence, keeping empty pieces (`"".split(":") == [""]`,
`"9:".split(":") == ["9", ""]`). -/
def pySplitGo (sep : Char) : List Char → List Char → List (List Char)
  | [], acc => [acc.reverse]
  | c :: rest, acc =>
    if c = sep then acc.reverse :: pySplitGo sep rest [] else pySplitGo sep rest (c :: acc)

/-- Python `s.split(sep)` for a one-character separator, over strings. -/
def pySplit (sep : Char) (s : String) : List String :=
  (pySplitGo sep s.data []).map fun l => ⟨l⟩

/-- Embedding of Python `int(s)` on strings: strip whitespace, optional sign,
then a digit run.  Returns `none` where Python raises `ValueError`. -/
def pyIntParse (s : String) : Option Int :=
  let cs := ((s.data.dropWhile isPyWs).reverse.dropWhile isPyWs).reverse
  match cs with
  | '+' :: rest => (pyDigitsVal rest).map Int.ofNat
  | '-' :: rest => (pyDigitsVal rest).map (fun n => -(Int.ofNat n))
  | _ => (pyDigitsVal cs).map Int.ofNat

/-- The `datetime.time(hour=h, minute=m)` constructor: `ValueError` (here
`none`) unless 0 ≤ h ≤ 23 and 0 ≤ m ≤ 59. -/
def timeCtor (h m : Int) : Option PyTime :=
  if 0 ≤ h ∧ h ≤ 23 ∧ 0 ≤ m ∧ m ≤ 59 then some ⟨h.toNat, m.toNat⟩ else none

namespace UpdateScheduler

/-- Embedding of `UpdateScheduler.set_scheduled_time` (scheduler.py lines
55-67).  Every step of the Python body that can raise `ValueError` — the
two-element unpacking of `split(":")`, each `int(...)`, and the `time`
constructor — is modelled as an `Option`; the `except (ValueError,
AttributeError)` clause routes every failure to the `time(hour=9, minute=0)`
default, so the embedded function is total. -/
def set_scheduled_time (st : SchedState) (time_str : String) : SchedState :=
  match pySplit ':' time_str with
  | [hs, ms] =>
    match pyIntParse hs, pyIntParse ms with
    | some h, some m =>
      match timeCtor h m with
      | some t => { st with scheduledTime := some t }
      | none => { st with scheduledTime := some ⟨9, 0⟩ }
    | _, _ => { st with scheduledTime := some ⟨9, 0⟩ }
  | _ => { st with scheduledTime := some ⟨9, 0⟩ }

end UpdateScheduler

/-- The condition of claim C10, stated from the spec's words: the string is
two colon-separated integers forming a valid time of day (hour 0-23, minute
0-59).  Shares the `int()` model with the embedding. -/
def validTimeStr (s : String) : Bool :=
  match pySplit ':' s with
  | [hs, ms] =>
    match pyIntParse hs, pyIntParse ms with
    | some h, some m => decide (0 ≤ h ∧ h < 24 ∧ 0 ≤ m ∧ m < 60)
    | _, _ => false
  | _ => false

/-! ## Event sequences over the schedule gate (for the once-per-day invariant) -/

/-- One externally triggered operation on the gate: a timer poll
(`_check_scheduled_time`) or a manual `trigger_now`, at some instant. -/
inductive SchedEv where
  | poll (now : Now)
  | trigger (now : Now)
deriving DecidableEq, Repr

/-- The date at which an event occurs. -/
def SchedEv.day : SchedEv → Nat
  | .poll n => n.day
  | .trigger n => n.day

/-- Run one event against the gate, returning the new state and whether the
`scheduled_check_triggered` signal was emitted. -/
def schedStep (st : SchedState) : SchedEv → SchedState × Bool
  | .poll n => UpdateScheduler._check_scheduled_time st n
  | .trigger n => UpdateScheduler.trigger_now st n

/-- Number of firings (signal emissions) on date `d` over an event sequence. -/
def firingsOn (d : Nat) : SchedState → List SchedEv → Nat
  | _, [] => 0
  | st, e :: rest =>
    let r := schedStep st e
    (if r.2 = true ∧ e.day = d then 1 else 0) + firingsOn d r.1 rest

/-- Number of firings on date `d` caused by poll events only. -/
def pollFiringsOn (d : Nat) : SchedState → List SchedEv → Nat
  | _, [] => 0
  | st, e :: rest =>
    let r := schedStep st e
    (match e with
     | .poll n => if r.2 = true ∧ n.day = d then 1 else 0
     | .trigger _ => 0) + pollFiringsOn d r.1 rest

/-! ## Helper characterisation of the poll gate -/

/-- The exact firing condition of `_check_scheduled_time`, as one boolean. -/
def fireCond (st : SchedState) (now : Now) : Bool :=
  st.enabled &&
    (match st.scheduledTime with
     | none => false
     | some t =>
       decide (st.lastCheckDate ≠ some now.day) &&
       decide (t.hour * 60 + t.minute ≤ now.hour * 60 + now.minute) &&
       decide (now.hour * 60 + now.minute < t.hour * 60 + t.minute + 2))

lemma check_scheduled_time_eq (st : SchedState) (now : Now) :
    UpdateScheduler._check_scheduled_time st now =
      if fireCond st now then ({ st with lastCheckDate := some now.day }, true)
      else (st, false) := by
  rcases st with ⟨sched, en, last⟩
  cases en <;> rcases sched with _ | t <;>
    simp only [UpdateScheduler._check_scheduled_time, fireCond] <;> simp <;>
    by_cases hl : last = some now.day <;>
    simp [hl] <;> omega

lemma fireCond_iff (st : SchedState) (now : Now) :
    fireCond st now = true ↔
      st.enabled = true ∧ ∃ t, st.scheduledTime = some t ∧
        st.lastCheckDate ≠ some now.day ∧
        t.hour * 60 + t.minute ≤ now.hour * 60 + now.minute ∧
        now.hour * 60 + now.minute < t.hour * 60 + t.minute + 2 := by
  rcases st with ⟨sched, en, last⟩
  cases en <;> rcases sched with _ | t <;> simp [fireCond] <;> tauto

lemma pollFiringsOn_zero_of_recorded (d : Nat) :
    ∀ (evs : List SchedEv) (st : SchedState) (dr : Nat),
      st.lastCheckDate = some dr → d ≤ dr →
      (∀ e ∈ evs, dr ≤ e.day) →
      List.Pairwise (fun a b => SchedEv.day a ≤ SchedEv.day b) evs →
      pollFiringsOn d st evs = 0 := by
  intro evs
  induction evs with
  | nil => intro st dr _ _ _ _; rfl
  | cons e rest ih =>
    intro st dr hlast hdr hge hpw
    rcases List.pairwise_cons.mp hpw with ⟨hhead, hpw'⟩
    have hedr : dr ≤ e.day := hge e (List.mem_cons_self _ _)
    cases e with
    | trigger n =>
      simp only [pollFiringsOn, schedStep, UpdateScheduler.trigger_now, Nat.zero_add]
      exact ih { st with lastCheckDate := some n.day } n.day rfl
        (le_trans hdr hedr) (fun e' h' => hhead e' h') hpw'
    | poll n =>
      simp only [pollFiringsOn, schedStep, check_scheduled_time_eq]
      by_cases hf : fireCond st n = true
      · have hne : st.lastCheckDate ≠ some n.day := by
          rcases (fireCond_iff st n).mp hf with ⟨_, t, _, hne, _⟩
          exact hne
        have hnd : n.day ≠ d := by
          intro hnd
          have : dr = n.day := le_antisymm hedr (hnd ▸ hdr)
          exact hne (this ▸ hlast)
        simp only [hf, if_true]
        rw [if_neg (by simp [hnd]), Nat.zero_add]
        exact ih { st with lastCheckDate := some n.day } n.day rfl
          (le_trans hdr hedr) (fun e' h' => hhead e' h') hpw'
      · simp only [Bool.not_eq_true] at hf
        simp only [hf, Bool.false_eq_true, if_false]
        rw [if_neg (by simp), Nat.zero_add]
        exact ih st dr hlast hdr (fun e' h' => le_trans hedr (hhead e' h')) hpw'

/-! ## Claim C1 -/

/-- C1: a poll of the schedule gate (`_check_scheduled_time`) emits the
scheduled-check signal exactly when the gate is enabled, a target time is
configured, no firing has been recorded for the current calendar date, and
the current time-of-day in whole minutes lies in the window
[target, target + 2); when it fires it records the current date as the
last-check date (the state returned alongside the emission already carries
it), and otherwise it leaves all state unchanged. -/
theorem c1_poll_gate_characterisation (st : SchedState) (now : Now) :
    ((UpdateScheduler._check_scheduled_time st now).2 = true ↔
      st.enabled = true ∧ ∃ t, st.scheduledTime = some t ∧
        st.lastCheckDate ≠ some now.day ∧
        t.hour * 60 + t.minute ≤ now.hour * 60 + now.minute ∧
        now.hour * 60 + now.minute < t.hour * 60 + t.minute + 2) ∧
    ((UpdateScheduler._check_scheduled_time st now).2 = true →
      (UpdateScheduler._check_scheduled_time st now).1 =
        { st with lastCheckDate := some now.day }) ∧
    ((UpdateScheduler._check_scheduled_time st now).2 = false →
      (UpdateScheduler._check_scheduled_time st now).1 = st) := by
  rw [check_scheduled_time_eq]
  by_cases hf : fireCond st now = true
  · have hc := (fireCond_iff st now).mp hf
    simp only [hf, if_true]
    refine ⟨by simpa using hc, ?_, ?_⟩
    · intro _
      trivial
    · intro h
      simp at h
  · have hc : ¬(st.enabled = true ∧ ∃ t, st.scheduledTime = some t ∧
        st.lastCheckDate ≠ some now.day ∧
        t.hour * 60 + t.minute ≤ now.hour * 60 + now.minute ∧
        now.hour * 60 + now.minute < t.hour * 60 + t.minute + 2) :=
      fun h => hf ((fireCond_iff st now).mpr h)
    simp only [Bool.not_eq_true] at hf
    simp only [hf, Bool.false_eq_true, if_false]
    refine ⟨by simpa using hc, ?_, ?_⟩
    · intro h
      simp at h
    · intro _
      trivial

/-- Witness for C1 at a concrete input: enabled gate, target 09:00, last
fired on day 4, polled at 09:01 of day 5 — it fires and records day 5. -/
theorem c1_poll_gate_characterisation_witness :
    (UpdateScheduler._check_scheduled_time ⟨some ⟨9, 0⟩, true, some 4⟩ ⟨5, 9, 1, 0⟩).1 =
      { SchedState.mk (some ⟨9, 0⟩) true (some 4) with lastCheckDate := some 5 } :=
  (c1_poll_gate_characterisation ⟨some ⟨9, 0⟩, true, some 4⟩ ⟨5, 9, 1, 0⟩).2.1 (by decide)

/-! ## Claim C4 -/

/-- C4 as stated is false at a concrete input: with an enabled gate, two
`trigger_now` calls on the same date (day 5) each emit the scheduled-check
signal, so two firings occur on one calendar date. -/
theorem c4_counterexample_two_triggers_one_date :
    ¬ (firingsOn 5 ⟨some ⟨9, 0⟩, true, none⟩
        [.trigger ⟨5, 10, 0, 0⟩, .trigger ⟨5, 11, 0, 0⟩] ≤ 1) := by decide

/-- C4 amended: over every chronologically ordered sequence of poll
(`_check_scheduled_time`) and `trigger_now` calls, at most one firing per
calendar date is emitted by the polls; `trigger_now` itself fires
unconditionally on every call (recording the date, which suppresses later
poll firings that date), so manual triggers are not bounded per date. -/
theorem c4_amended_at_most_one_poll_firing_per_date
    (d : Nat) (evs : List SchedEv) (st : SchedState)
    (hchron : List.Pairwise (fun a b => SchedEv.day a ≤ SchedEv.day b) evs) :
    pollFiringsOn d st evs ≤ 1 := by
  induction evs generalizing st with
  | nil => simp [pollFiringsOn]
  | cons e rest ih =>
    rcases List.pairwise_cons.mp hchron with ⟨hhead, hpw'⟩
    cases e with
    | trigger n =>
      simp only [pollFiringsOn, schedStep, UpdateScheduler.trigger_now, Nat.zero_add]
      exact ih _ hpw'
    | poll n =>
      simp only [pollFiringsOn, schedStep, check_scheduled_time_eq]
      by_cases hf : fireCond st n = true
      · simp only [hf, if_true]
        by_cases hd : n.day = d
        · rw [if_pos (by simp [hd])]
          have hzero : pollFiringsOn d { st with lastCheckDate := some n.day } rest = 0 :=
            pollFiringsOn_zero_of_recorded d rest _ n.day rfl (le_of_eq hd.symm)
              (fun e' h' => hhead e' h') hpw'
          omega
        · rw [if_neg (by simp [hd])]
          simpa using ih _ hpw'
      · simp only [Bool.not_eq_true] at hf
        simp only [hf, Bool.false_eq_true, if_false]
        rw [if_neg (by simp), Nat.zero_add]
        exact ih st hpw'

/-- Witness for the amended C4 at a concrete chronological run: target 09:00,
poll at 08:59 (no fire), poll at 09:00 (fires), poll at 09:01 and a manual
trigger later the same day — the poll-firing count on day 5 stays ≤ 1. -/
theorem c4_amended_witness :
    pollFiringsOn 5 ⟨some ⟨9, 0⟩, true, none⟩ [.poll ⟨5, 8, 59, 0⟩,
        .poll ⟨5, 9, 0, 0⟩, .poll ⟨5, 9, 1, 0⟩, .trigger ⟨5, 12, 0, 0⟩] ≤ 1 :=
  c4_amended_at_most_one_poll_firing_per_date 5 _ _ (by decide)

/-! ## Claim C6 -/

lemma dtLt_same_day (day h m s th tm : Nat) :
    UpdateScheduler.dtLt ⟨day, h, m, s⟩ ⟨day, th, tm, 0⟩ = true ↔
      (h < th ∨ (h = th ∧ m < tm)) := by
  simp [UpdateScheduler.dtLt]

/-- C6: `next_check_datetime` is a pure query (the embedding returns a value
and touches no state); it returns `none` when the gate is disabled or no
target is configured; otherwise, if today's target time-of-day has not yet
passed and no firing has been recorded for today's date, it returns today's
date combined with the target time, and in every other case it returns the
next calendar date combined with the target time. -/
theorem c6_next_check_datetime_cases (st : SchedState) (now : Now) :
    ((st.enabled = false ∨ st.scheduledTime = none) →
      UpdateScheduler.next_check_datetime st now = none) ∧
    (∀ t, st.enabled = true → st.scheduledTime = some t →
      (((now.hour < t.hour ∨ (now.hour = t.hour ∧ now.minute < t.minute)) ∧
          st.lastCheckDate ≠ some now.day) →
        UpdateScheduler.next_check_datetime st now = some ⟨now.day, t.hour, t.minute, 0⟩) ∧
      (¬((now.hour < t.hour ∨ (now.hour = t.hour ∧ now.minute < t.minute)) ∧
          st.lastCheckDate ≠ some now.day) →
        UpdateScheduler.next_check_datetime st now = some ⟨now.day + 1, t.hour, t.minute, 0⟩)) := by
  constructor
  · intro h
    rcases st with ⟨sched, en, last⟩
    rcases h with h | h
    · simp at h
      simp [UpdateScheduler.next_check_datetime, h]
    · simp at h
      simp [UpdateScheduler.next_check_datetime, h]
  · intro t hen hsched
    rcases st with ⟨sched, en, last⟩
    simp only at hen hsched
    subst hen hsched
    constructor
    · intro hcond
      simp only [UpdateScheduler.next_check_datetime]
      rw [if_neg (by simp)]
      rw [if_pos ⟨(dtLt_same_day _ _ _ _ _ _).mpr hcond.1, hcond.2⟩]
    · intro hcond
      simp only [UpdateScheduler.next_check_datetime]
      rw [if_neg (by simp)]
      rw [if_neg (fun hc => hcond ⟨(dtLt_same_day _ _ _ _ _ _).mp hc.1, hc.2⟩)]

/-- Witness for C6: enabled gate, target 09:00, now 08:00 on day 5 with no
firing recorded — the next check instant is 09:00 of day 5. -/
theorem c6_next_check_datetime_witness :
    UpdateScheduler.next_check_datetime ⟨some ⟨9, 0⟩, true, none⟩ ⟨5, 8, 0, 0⟩ =
      some ⟨5, 9, 0, 0⟩ :=
  ((c6_next_check_datetime_cases ⟨some ⟨9, 0⟩, true, none⟩ ⟨5, 8, 0, 0⟩).2
    ⟨9, 0⟩ rfl rfl).1 (by decide)

/-! ## Claim C10 -/

/-- C10: `set_scheduled_time` never raises (its embedding is total over all
strings, every `ValueError` site being caught by the handler); when the input
does not parse as two colon-separated integers forming a valid time of day
(hour 0-23, minute 0-59), the target time is set to the default 09:00 rather
than rejected or left unchanged, and the other gate state is untouched. -/
theorem c10_set_scheduled_time_default (st : SchedState) (s : String) :
    ((UpdateScheduler.set_scheduled_time st s).enabled = st.enabled ∧
     (UpdateScheduler.set_scheduled_time st s).lastCheckDate = st.lastCheckDate) ∧
    (∃ t, (UpdateScheduler.set_scheduled_time st s).scheduledTime = some t) ∧
    (validTimeStr s = false →
      (UpdateScheduler.set_scheduled_time st s).scheduledTime = some ⟨9, 0⟩) := by
  rcases hsp : pySplit ':' s with _ | ⟨a, _ | ⟨b, _ | ⟨c, l⟩⟩⟩ <;>
    simp only [UpdateScheduler.set_scheduled_time, validTimeStr, hsp]
  · simp
  · simp
  · rcases hh : pyIntParse a with _ | h <;> rcases hm : pyIntParse b with _ | m <;>
      simp only [hh, hm]
    · simp
    · simp
    · simp
    · rcases ht : timeCtor h m with _ | t <;> simp only [ht]
      · simp
      · refine ⟨by simp, ⟨t, by simp⟩, fun hv => ?_⟩
        exfalso
        unfold timeCtor at ht
        by_cases hc : (0 ≤ h ∧ h ≤ 23 ∧ 0 ≤ m ∧ m ≤ 59)
        · rw [decide_eq_false_iff_not] at hv
          exact hv ⟨hc.1, by omega, hc.2.2.1, by omega⟩
        · rw [if_neg hc] at ht
          exact Option.noConfusion ht
  · simp

/-- Witness for C10: the malformed string "25:99" sets the target to 09:00. -/
theorem c10_set_scheduled_time_default_witness :
    (UpdateScheduler.set_scheduled_time ⟨none, false, none⟩ "25:99").scheduledTime =
      some ⟨9, 0⟩ :=
  (c10_set_scheduled_time_default ⟨none, false, none⟩ "25:99").2.2 (by decide)

/-! ## Settings model (src/settings_manager.py) -/

/-- A JSON value as produced by `json.load`. -/
inductive JVal where
  | jnull : JVal
  | jbool (b : Bool) : JVal
  | jnum (n : Int) : JVal
  | jstr (s : String) : JVal
  | jarr (xs : List JVal) : JVal
  | jobj (fields : List (String × JVal)) : JVal

/-- The field names of the `AppSettings` dataclass, in declaration order. -/
def appSettingsFieldNames : List String :=
  ["auto_update_enabled", "scheduled_time", "auto_install_enabled",
   "include_prerelease", "minimize_to_tray", "start_minimized",
   "run_at_startup", "last_check_date"]

/-- The `AppSettings` dataclass.  Python dataclasses do not check the
annotated types at construction time, so each field holds whatever JSON
value was supplied; the declared defaults are the `jbool`/`jstr` values
below. -/
structure AppSettings where
  auto_update_enabled : JVal
  scheduled_time : JVal
  auto_install_enabled : JVal
  include_prerelease : JVal
  minimize_to_tray : JVal
  start_minimized : JVal
  run_at_startup : JVal
  last_check_date : JVal

/-- The default `AppSettings()` record (settings_manager.py lines 10-25). -/
def defaultAppSettings : AppSettings :=
  ⟨.jbool false, .jstr "09:00", .jbool false, .jbool false,
   .jbool true, .jbool false, .jbool false, .jstr ""⟩

/-- Exceptions relevant to `_load_settings`.  `unicodeDecodeError` is what
`json.load` raises (from the underlying text read) when the file's bytes are
not valid UTF-8; it is a `ValueError` but not a `json.JSONDecodeError`. -/
inductive PyErr where
  | jsonDecodeError : PyErr
  | unicodeDecodeError : PyErr
  | typeError : PyErr
  | keyError : PyErr
deriving DecidableEq, Repr

/-- Keyword lookup in a JSON object (a `dict`: a later duplicate key wins). -/
def lookupKw (fields : List (String × JVal)) (name : String) (dflt : JVal) : JVal :=
  match fields.reverse.lookup name with
  | some v => v
  | none => dflt

/-- The call `AppSettings(**data)`: `TypeError` when `data` is not a mapping
or when some key is not a dataclass field name; otherwise each field takes
the supplied value or its declared default. -/
def appSettingsFromKwargs (data : JVal) : Except PyErr AppSettings :=
  match data with
  | .jobj fields =>
    if fields.all (fun kv => appSettingsFieldNames.contains kv.1) then
      .ok ⟨lookupKw fields "auto_update_enabled" (.jbool false),
           lookupKw fields "scheduled_time" (.jstr "09:00"),
           lookupKw fields "auto_install_enabled" (.jbool false),
           lookupKw fields "include_prerelease" (.jbool false),
           lookupKw fields "minimize_to_tray" (.jbool true),
           lookupKw fields "start_minimized" (.jbool false),
           lookupKw fields "run_at_startup" (.jbool false),
           lookupKw fields "last_check_date" (.jstr "")⟩
    else .error .typeError
  | _ => .error .typeError

/-- Whether the parsed record matches the expected settings fields: a JSON
object all of whose keys are `AppSettings` field names. -/
def kwargsMatch (data : JVal) : Bool :=
  match data with
  | .jobj fields => fields.all (fun kv => appSettingsFieldNames.contains kv.1)
  | _ => false

/-- The exception classes named by the `except` clause of `_load_settings`
(settings_manager.py line 60): `json.JSONDecodeError`, `TypeError`,
`KeyError`.  `UnicodeDecodeError` is not among them (and is not a subclass
of any of them), so it is not caught. -/
def loadSettingsCatches : PyErr → Bool
  | .jsonDecodeError => true
  | .typeError => true
  | .keyError => true
  | .unicodeDecodeError => false

/-- The outcome of reading the existing settings file's contents through
`json.load` on a UTF-8 text stream: the bytes may fail to decode as UTF-8
(`UnicodeDecodeError`), the decoded text may fail to parse as JSON
(`json.JSONDecodeError`), or a JSON value is produced. -/
inductive JsonLoadOutcome where
  | unicodeError : JsonLoadOutcome
  | decodeError : JsonLoadOutcome
  | parsed (j : JVal) : JsonLoadOutcome

namespace SettingsManager

/-- Embedding of `SettingsManager._load_settings` (settings_manager.py lines
53-63).  The input is `none` when the settings file does not exist, and
`some parsed` otherwise, where `parsed` is the outcome of `json.load`
(`none` = `JSONDecodeError`).  The `try` body's result or exception is then
filtered through the `except` clause, which returns `AppSettings()`. -/
def _load_settings (file : Option JsonLoadOutcome) : Except PyErr AppSettings :=
  match file with
  | none => .ok defaultAppSettings
  | some outcome =>
    let attempt : Except PyErr AppSettings :=
      match outcome with
      | .unicodeError => .error .unicodeDecodeError
      | .decodeError => .error .jsonDecodeError
      | .parsed j => appSettingsFromKwargs j
    match attempt with
    | .ok a => .ok a
    | .error e => if loadSettingsCatches e then .ok defaultAppSettings else .error e

end SettingsManager

/-! ## Claim C8 -/

/-- C8 as stated is false at a concrete input: a settings file whose bytes
are not valid UTF-8 makes `json.load` raise `UnicodeDecodeError`, which the
`except (json.JSONDecodeError, TypeError, KeyError)` clause of
settings_manager.py line 60 does not catch, so `_load_settings` propagates
an exception instead of returning the defaults. -/
theorem c8_counterexample_undecodable_bytes :
    SettingsManager._load_settings (some .unicodeError) =
      .error .unicodeDecodeError ∧
    ∀ a, SettingsManager._load_settings (some .unicodeError) ≠ .ok a := by
  refine ⟨rfl, ?_⟩
  intro a h
  exact Except.noConfusion h

/-- C8 amended: for a missing settings file, for contents that decode as
text but fail to parse as JSON, and for a parsed record that does not match
the expected settings fields, `_load_settings` returns the built-in default
`AppSettings` instead of propagating an error, and every parsed record
yields a normal return; but contents whose bytes are not valid UTF-8 raise
`UnicodeDecodeError`, which the `except` clause does not catch. -/
theorem c8_amended_load_settings_defaults (file : Option JsonLoadOutcome) :
    (file = none → SettingsManager._load_settings file = .ok defaultAppSettings) ∧
    (file = some .decodeError →
      SettingsManager._load_settings file = .ok defaultAppSettings) ∧
    (∀ j, file = some (.parsed j) → kwargsMatch j = false →
      SettingsManager._load_settings file = .ok defaultAppSettings) ∧
    (∀ j, file = some (.parsed j) →
      ∃ a, SettingsManager._load_settings file = .ok a) ∧
    (file = some .unicodeError →
      SettingsManager._load_settings file = .error .unicodeDecodeError) := by
  cases file with
  | none => exact ⟨fun _ => rfl, by simp, by simp, by simp, by simp⟩
  | some outcome =>
    cases outcome with
    | unicodeError => exact ⟨by simp, by simp, by simp, by simp, fun _ => rfl⟩
    | decodeError => exact ⟨by simp, fun _ => rfl, by simp, by simp, by simp⟩
    | parsed j =>
      refine ⟨by simp, by simp, ?_, ?_, by simp⟩
      · intro j' hj hmatch
        have hjj : j = j' := by
          injection hj with h1
          injection h1
        subst hjj
        rcases j with _ | b | n | str | xs | fields
        · rfl
        · rfl
        · rfl
        · rfl
        · rfl
        · simp only [kwargsMatch] at hmatch
          simp only [SettingsManager._load_settings, appSettingsFromKwargs]
          rw [if_neg (by rw [hmatch]; simp)]
          rfl
      · intro j' hj
        have hjj : j = j' := by
          injection hj with h1
          injection h1
        subst hjj
        rcases j with _ | b | n | str | xs | fields
        · exact ⟨defaultAppSettings, rfl⟩
        · exact ⟨defaultAppSettings, rfl⟩
        · exact ⟨defaultAppSettings, rfl⟩
        · exact ⟨defaultAppSettings, rfl⟩
        · exact ⟨defaultAppSettings, rfl⟩
        · simp only [SettingsManager._load_settings, appSettingsFromKwargs]
          by_cases hall : fields.all (fun kv => appSettingsFieldNames.contains kv.1) = true
          · rw [if_pos hall]
            exact ⟨_, rfl⟩
          · rw [if_neg hall]
            exact ⟨defaultAppSettings, rfl⟩

/-- Witness for the amended C8: a settings file whose JSON is a bare string
(not a record) loads as the built-in defaults. -/
theorem c8_amended_load_settings_witness :
    SettingsManager._load_settings (some (.parsed (.jstr "oops"))) =
      .ok defaultAppSettings :=
  (c8_amended_load_settings_defaults (some (.parsed (.jstr "oops")))).2.2.1
    (.jstr "oops") rfl rfl

/-! ## Downloader model (src/downloader.py) -/

/-- How a `Downloader.download` call terminates: normal return, a raised
`DownloadError` (with the flag telling whether it was the cancellation raise
of line 90 or the `requests.RequestException` wrapper of line 103), or an
uncaught `OSError` escaping from a file write (the `except` clause of line
102 catches only `requests.RequestException`). -/
inductive DlOut where
  | ok : DlOut
  | downloadError (cancelled : Bool) : DlOut
  | osError : DlOut
deriving DecidableEq, Repr

/-- Result of a `download` call: the way it terminated, the destination file
afterwards (`none` = no file at the path), and the sequence of
`progress_callback(downloaded_size, total_size)` invocations. -/
structure DlResult where
  outcome : DlOut
  file : Option (List Nat)
  progress : List (Nat × Nat)
deriving DecidableEq, Repr

/-- Whether the cancellation flag is set when the loop's check at chunk
index `idx` runs: `cancelAt = some k` means a concurrent `cancel()` set the
flag just before the k-th check would run. -/
def cancelSet (cancelAt : Option Nat) (idx : Nat) : Bool :=
  match cancelAt with
  | some k => decide (k ≤ idx)
  | none => false

/-- Whether the `f.write` for chunk index `idx` raises `OSError`. -/
def writeFails (writeFailAt : Option Nat) (idx : Nat) : Bool :=
  match writeFailAt with
  | some j => decide (j = idx)
  | none => false

/-- Embedding of the streaming loop of `Downloader.download` (downloader.py
lines 84-97).  One iteration per chunk yielded by `iter_content`: first the
cancellation check (close, delete the file, raise `DownloadError`), then the
`if chunk:` falsy-skip of empty chunks, then the write — a failing write
raises `OSError`, leaving the bytes written so far on disk — then the
`downloaded_size` update and the progress callback. -/
def dlLoop (cancelAt writeFailAt : Option Nat) (total : Nat) :
    List (List Nat) → Nat → List Nat → Nat → List (Nat × Nat) → DlResult
  | [], _, written, _, progress => ⟨.ok, some written, progress⟩
  | chunk :: rest, idx, written, downloaded, progress =>
    if cancelSet cancelAt idx then ⟨.downloadError true, none, progress⟩
    else if chunk.isEmpty then
      dlLoop cancelAt writeFailAt total rest (idx + 1) written downloaded progress
    else if writeFails writeFailAt idx then ⟨.osError, some written, progress⟩
    else
      dlLoop cancelAt writeFailAt total rest (idx + 1) (written ++ chunk)
        (downloaded + chunk.length)
        (progress ++ [(downloaded + chunk.length, total)])

/-- The mutable state of a `Downloader` object: `_download_path` and
`_is_cancelled`. -/
structure Downloader where
  download_path : Option String
  is_cancelled : Bool
deriving DecidableEq, Repr

/-- Embedding of `Downloader.cancel` (downloader.py lines 37-39). -/
def Downloader.cancel (d : Downloader) : Downloader :=
  { d with is_cancelled := true }

/-- Embedding of `Downloader.download` (downloader.py lines 41-103).  The
external world is explicit: `request` is the outcome of `requests.get` plus
`raise_for_status` (`none` = a raised `requests.RequestException`, which the
handler of line 102 turns into `DownloadError`; `some (total, chunks)` =
success with the parsed `content-length` and the chunk sequence);
`initFile` is whatever file sat at the destination path beforehand;
`cancelAt`/`writeFailAt` schedule the concurrent `cancel()` and any write
failure.  Line 63 resets `_is_cancelled` before anything else, so the
initial flag value is dead; after the call the flag reflects whether a
`cancel()` happened during it. -/
def Downloader.download (d : Downloader) (version : String)
    (request : Option (Nat × List (List Nat))) (initFile : Option (List Nat))
    (cancelAt writeFailAt : Option Nat) : Downloader × DlResult :=
  let d0 : Downloader := { d with is_cancelled := false }
  let d1 : Downloader := { d0 with is_cancelled := cancelAt.isSome }
  match request with
  | none => (d1, ⟨.downloadError false, initFile, []⟩)
  | some (total, chunks) =>
    let r := dlLoop cancelAt writeFailAt total chunks 0 [] 0 []
    match r.outcome with
    | .ok =>
      ({ d1 with download_path := some ("python-" ++ version ++ "-amd64.exe") }, r)
    | _ => (d1, r)

/-! ## Loop lemmas for the downloader -/

lemma dlLoop_cancel_observed (total : Nat) :
    ∀ (chunks : List (List Nat)) (idx k : Nat) (w : List Nat) (dl : Nat)
      (p : List (Nat × Nat)), idx ≤ k → k < idx + chunks.length →
      (dlLoop (some k) none total chunks idx w dl p).outcome = .downloadError true ∧
      (dlLoop (some k) none total chunks idx w dl p).file = none := by
  intro chunks
  induction chunks with
  | nil =>
    intro idx k w dl p h1 h2
    simp at h2
    exact absurd h1 (by omega)
  | cons chunk rest ih =>
    intro idx k w dl p h1 h2
    by_cases hk : k ≤ idx
    · have hcs : cancelSet (some k) idx = true := by simp [cancelSet, hk]
      simp [dlLoop, hcs]
    · have hcs : cancelSet (some k) idx = false := by
        simp only [cancelSet, decide_eq_false_iff_not]
        omega
      simp only [dlLoop, hcs, Bool.false_eq_true, if_false]
      by_cases he : chunk.isEmpty
      · rw [if_pos he]
        exact ih (idx + 1) k w dl p (by omega) (by simp at h2 ⊢; omega)
      · rw [if_neg he]
        have hwf : writeFails none idx = false := rfl
        rw [hwf]
        simp only [Bool.false_eq_true, if_false]
        exact ih (idx + 1) k _ _ _ (by omega) (by simp at h2 ⊢; omega)

lemma dlLoop_success (total : Nat) :
    ∀ (chunks : List (List Nat)) (idx : Nat) (cAt : Option Nat) (w : List Nat)
      (dl : Nat) (p : List (Nat × Nat)),
      (∀ k, cAt = some k → idx + chunks.length ≤ k) →
      ∃ p', dlLoop cAt none total chunks idx w dl p =
        ⟨.ok, some (w ++ chunks.flatten), p'⟩ := by
  intro chunks
  induction chunks with
  | nil =>
    intro idx cAt w dl p _
    exact ⟨p, by simp [dlLoop]⟩
  | cons chunk rest ih =>
    intro idx cAt w dl p hno
    have hcs : cancelSet cAt idx = false := by
      cases cAt with
      | none => rfl
      | some k =>
        have h := hno k rfl
        simp at h
        simp only [cancelSet, decide_eq_false_iff_not]
        omega
    simp only [dlLoop, hcs, Bool.false_eq_true, if_false]
    by_cases he : chunk.isEmpty
    · rw [if_pos he]
      have hch : chunk = [] := List.isEmpty_iff.mp he
      subst hch
      rcases ih (idx + 1) cAt w dl p
          (fun k hk => by have h := hno k hk; simp at h; omega) with ⟨p', hp'⟩
      exact ⟨p', by simpa using hp'⟩
    · rw [if_neg he]
      have hwf : writeFails none idx = false := rfl
      rw [hwf]
      simp only [Bool.false_eq_true, if_false]
      rcases ih (idx + 1) cAt (w ++ chunk) (dl + chunk.length)
          (p ++ [(dl + chunk.length, total)])
          (fun k hk => by have h := hno k hk; simp at h; omega) with ⟨p', hp'⟩
      refine ⟨p', ?_⟩
      rw [hp']
      simp [List.append_assoc]

lemma dlLoop_downloadError_cancelled (cAt wAt : Option Nat) (total : Nat) :
    ∀ (chunks : List (List Nat)) (idx : Nat) (w : List Nat) (dl : Nat)
      (p : List (Nat × Nat)) (b : Bool),
      (dlLoop cAt wAt total chunks idx w dl p).outcome = .downloadError b →
      b = true ∧ ∃ k, cAt = some k := by
  intro chunks
  induction chunks with
  | nil =>
    intro idx w dl p b h
    exact absurd h (by simp [dlLoop])
  | cons chunk rest ih =>
    intro idx w dl p b h
    by_cases hcs : cancelSet cAt idx = true
    · have hsome : ∃ k, cAt = some k := by
        cases cAt with
        | none => exact absurd hcs (by simp [cancelSet])
        | some k => exact ⟨k, rfl⟩
      simp only [dlLoop, hcs, if_true] at h
      exact ⟨by injection h with hb; exact hb.symm, hsome⟩
    · simp only [Bool.not_eq_true] at hcs
      simp only [dlLoop, hcs, Bool.false_eq_true, if_false] at h
      by_cases he : chunk.isEmpty
      · rw [if_pos he] at h
        exact ih (idx + 1) w dl p b h
      · rw [if_neg he] at h
        by_cases hwf : writeFails wAt idx = true
        · rw [if_pos hwf] at h
          exact absurd h (by simp)
        · simp only [Bool.not_eq_true] at hwf
          rw [hwf] at h
          simp only [Bool.false_eq_true, if_false] at h
          exact ih (idx + 1) _ _ _ b h

lemma dlLoop_no_osError (cAt : Option Nat) (total : Nat) :
    ∀ (chunks : List (List Nat)) (idx : Nat) (w : List Nat) (dl : Nat)
      (p : List (Nat × Nat)),
      (dlLoop cAt none total chunks idx w dl p).outcome ≠ .osError := by
  intro chunks
  induction chunks with
  | nil =>
    intro idx w dl p
    simp [dlLoop]
  | cons chunk rest ih =>
    intro idx w dl p
    by_cases hcs : cancelSet cAt idx = true
    · simp [dlLoop, hcs]
    · simp only [Bool.not_eq_true] at hcs
      simp only [dlLoop, hcs, Bool.false_eq_true, if_false]
      by_cases he : chunk.isEmpty
      · rw [if_pos he]
        exact ih (idx + 1) w dl p
      · rw [if_neg he]
        have hwf : writeFails none idx = false := rfl
        rw [hwf]
        simp only [Bool.false_eq_true, if_false]
        exact ih (idx + 1) _ _ _

lemma dlLoop_ok_progress (cAt wAt : Option Nat) (total : Nat) :
    ∀ (chunks : List (List Nat)) (idx : Nat) (w : List Nat) (p : List (Nat × Nat)),
      ((p.getLast?).map Prod.fst).getD w.length = w.length →
      (dlLoop cAt wAt total chunks idx w w.length p).outcome = .ok →
      ∃ bytes, (dlLoop cAt wAt total chunks idx w w.length p).file = some bytes ∧
        (((dlLoop cAt wAt total chunks idx w w.length p).progress.getLast?).map
          Prod.fst).getD bytes.length = bytes.length := by
  intro chunks
  induction chunks with
  | nil =>
    intro idx w p hp _
    exact ⟨w, rfl, hp⟩
  | cons chunk rest ih =>
    intro idx w p hp hok
    by_cases hcs : cancelSet cAt idx = true
    · rw [show dlLoop cAt wAt total (chunk :: rest) idx w w.length p =
          ⟨.downloadError true, none, p⟩ by simp [dlLoop, hcs]] at hok
      exact absurd hok (by simp)
    · simp only [Bool.not_eq_true] at hcs
      simp only [dlLoop, hcs, Bool.false_eq_true, if_false] at hok ⊢
      by_cases he : chunk.isEmpty
      · rw [if_pos he] at hok ⊢
        exact ih (idx + 1) w p hp hok
      · rw [if_neg he] at hok ⊢
        by_cases hwf : writeFails wAt idx = true
        · rw [if_pos hwf] at hok
          exact absurd hok (by simp)
        · simp only [Bool.not_eq_true] at hwf
          rw [hwf] at hok ⊢
          simp only [Bool.false_eq_true, if_false] at hok ⊢
          rw [show w.length + chunk.length = (w ++ chunk).length from
              (List.length_append w chunk).symm] at hok ⊢
          refine ih (idx + 1) (w ++ chunk) (p ++ [((w ++ chunk).length, total)]) ?_ hok
          simp

lemma download_snd (d : Downloader) (version : String) (total : Nat)
    (chunks : List (List Nat)) (initFile : Option (List Nat)) (cAt wAt : Option Nat) :
    (d.download version (some (total, chunks)) initFile cAt wAt).2 =
      dlLoop cAt wAt total chunks 0 [] 0 [] := by
  cases hout : (dlLoop cAt wAt total chunks 0 [] 0 []).outcome <;>
    simp [Downloader.download, hout]

lemma download_fst_ok (d : Downloader) (version : String) (total : Nat)
    (chunks : List (List Nat)) (initFile : Option (List Nat)) (cAt wAt : Option Nat)
    (h : (dlLoop cAt wAt total chunks 0 [] 0 []).outcome = .ok) :
    (d.download version (some (total, chunks)) initFile cAt wAt).1.download_path =
      some ("python-" ++ version ++ "-amd64.exe") := by
  simp [Downloader.download, h]

/-! ## Claim C2 -/

/-- C2 as stated is false at a concrete input: with a single-chunk transfer,
a `cancel()` whose flag becomes set only after the loop's sole per-chunk
check (`cancelAt = some 1`, i.e. while the final chunk is being written —
during the transfer) is never observed: the download returns normally and
the completed file remains at the destination, with no `DownloadError`. -/
theorem c2_counterexample_late_cancel :
    (Downloader.download ⟨none, false⟩ "3.13.0" (some (1, [[1]])) none
        (some 1) none).2.outcome = .ok ∧
    (Downloader.download ⟨none, false⟩ "3.13.0" (some (1, [[1]])) none
        (some 1) none).2.file = some [1] ∧
    ¬ ((Downloader.download ⟨none, false⟩ "3.13.0" (some (1, [[1]])) none
        (some 1) none).2.outcome = .downloadError true ∧
       (Downloader.download ⟨none, false⟩ "3.13.0" (some (1, [[1]])) none
        (some 1) none).2.file = none) := by
  decide

/-- C2 amended: when the cancellation flag is set early enough to be observed
by one of the loop's per-chunk checks (the flag is set before check `k` with
`k < chunks.length`; the loop checks once before each chunk and never after
the last one) and no write failure intervenes, the download deletes the
partially written destination file and raises the cancellation
`DownloadError`, so no file remains at the destination path.  A cancel whose
flag is set only after the final check is not observed and the transfer
completes normally. -/
theorem c2_amended_observed_cancel_deletes_file (d : Downloader) (version : String)
    (total : Nat) (chunks : List (List Nat)) (initFile : Option (List Nat)) (k : Nat)
    (hk : k < chunks.length) :
    (d.download version (some (total, chunks)) initFile (some k) none).2.outcome =
      .downloadError true ∧
    (d.download version (some (total, chunks)) initFile (some k) none).2.file =
      none := by
  rw [download_snd]
  exact dlLoop_cancel_observed total chunks 0 k [] 0 [] (Nat.zero_le k) (by omega)

/-- Witness for the amended C2: two chunks, cancel observed at the second
check — the file is deleted and the cancellation error is raised. -/
theorem c2_amended_witness :
    (Downloader.download ⟨none, false⟩ "3.13.0" (some (5, [[1, 2], [3]])) none
        (some 1) none).2.outcome = .downloadError true ∧
    (Downloader.download ⟨none, false⟩ "3.13.0" (some (5, [[1, 2], [3]])) none
        (some 1) none).2.file = none :=
  c2_amended_observed_cancel_deletes_file ⟨none, false⟩ "3.13.0" 5 [[1, 2], [3]]
    none 1 (by decide)

/-! ## Claim C5 -/

/-- C5 as stated is false at a concrete input: an `OSError` raised by the
first file write escapes `download` as-is (the `except` clause catches only
`requests.RequestException`), so an I/O failure while writing the
destination file does not surface as `DownloadError`. -/
theorem c5_counterexample_write_failure_not_downloadError :
    (Downloader.download ⟨none, false⟩ "3.13.0" (some (1, [[1]])) none none
        (some 0)).2.outcome = .osError ∧
    (∀ b, (Downloader.download ⟨none, false⟩ "3.13.0" (some (1, [[1]])) none none
        (some 0)).2.outcome ≠ .downloadError b) := by
  decide

/-- C5 amended: `download` raises `DownloadError` exactly when the request
fails (network failure or non-success status) or an in-transfer cancellation
is observed; an I/O failure while writing the destination file instead
propagates as the underlying `OSError`; and absent those failures the call
returns normally with the destination path recorded. -/
theorem c5_amended_error_classification (d : Downloader) (version : String)
    (request : Option (Nat × List (List Nat))) (initFile : Option (List Nat))
    (cAt wAt : Option Nat) :
    (request = none →
      (d.download version request initFile cAt wAt).2.outcome =
        .downloadError false) ∧
    (∀ total chunks, request = some (total, chunks) →
      (∀ k, cAt = some k → k < chunks.length → wAt = none →
        (d.download version request initFile cAt wAt).2.outcome =
          .downloadError true ∧
        (d.download version request initFile cAt wAt).2.file = none) ∧
      ((∀ k, cAt = some k → chunks.length ≤ k) → wAt = none →
        (d.download version request initFile cAt wAt).2.outcome = .ok ∧
        (d.download version request initFile cAt wAt).1.download_path =
          some ("python-" ++ version ++ "-amd64.exe")) ∧
      ((d.download version request initFile cAt wAt).2.outcome =
          .downloadError false → False) ∧
      ((d.download version request initFile cAt wAt).2.outcome = .osError →
        wAt ≠ none)) := by
  constructor
  · intro h
    subst h
    rfl
  · intro total chunks hreq
    subst hreq
    refine ⟨?_, ?_, ?_, ?_⟩
    · intro k hcak hk hwn
      subst hcak
      subst hwn
      rw [download_snd]
      exact dlLoop_cancel_observed total chunks 0 k [] 0 [] (Nat.zero_le k) (by omega)
    · intro hno hwn
      subst hwn
      obtain ⟨p', hp'⟩ := dlLoop_success total chunks 0 cAt [] 0 []
        (fun k hk => by have := hno k hk; omega)
      constructor
      · rw [download_snd, hp']
      · exact download_fst_ok d version total chunks initFile cAt none (by rw [hp'])
    · intro habs
      rw [download_snd] at habs
      rcases dlLoop_downloadError_cancelled cAt wAt total chunks 0 [] 0 [] false habs
        with ⟨hb, _⟩
      exact absurd hb (by simp)
    · intro hos hweq
      subst hweq
      rw [download_snd] at hos
      exact dlLoop_no_osError cAt total chunks 0 [] 0 [] hos

/-- Witness for the amended C5: a failed request surfaces as the
non-cancellation `DownloadError`. -/
theorem c5_amended_witness :
    (Downloader.download ⟨none, false⟩ "3.13.0" none (some [7]) none
        none).2.outcome = .downloadError false :=
  (c5_amended_error_classification ⟨none, false⟩ "3.13.0" none (some [7])
    none none).1 rfl

/-! ## Claim C7 -/

/-- C7: for every chunk sequence (hence every chunk size) delivered by the
origin, when a download completes successfully the total number of bytes
written to the destination file equals the bytes-downloaded value passed to
the final invocation of the progress callback. -/
theorem c7_final_progress_equals_bytes_written (d : Downloader) (version : String)
    (total : Nat) (chunks : List (List Nat)) (initFile : Option (List Nat))
    (cAt wAt : Option Nat) (bytes : List Nat) (e : Nat × Nat)
    (hok : (d.download version (some (total, chunks)) initFile cAt wAt).2.outcome = .ok)
    (hfile : (d.download version (some (total, chunks)) initFile cAt wAt).2.file =
      some bytes)
    (hlast : (d.download version (some (total, chunks)) initFile cAt
        wAt).2.progress.getLast? = some e) :
    e.1 = bytes.length := by
  rw [download_snd] at hok hfile hlast
  have h0 : ((([] : List (Nat × Nat)).getLast?).map Prod.fst).getD
      ([] : List Nat).length = ([] : List Nat).length := by simp
  obtain ⟨bytes', hb, hp⟩ := dlLoop_ok_progress cAt wAt total chunks 0 [] [] h0 hok
  simp only [List.length_nil] at hb hp
  rw [hfile] at hb
  injection hb with hb'
  subst hb'
  rw [hlast] at hp
  simpa using hp

/-- Witness for C7: two chunks of sizes 2 and 1 — the final callback reports
3 bytes downloaded and the destination file holds 3 bytes. -/
theorem c7_final_progress_witness : ((3, 9) : Nat × Nat).1 = ([1, 2, 3] : List Nat).length :=
  c7_final_progress_equals_bytes_written ⟨none, false⟩ "3.13.0" 9 [[1, 2], [3]]
    none none none [1, 2, 3] (3, 9) (by decide) (by decide) (by decide)

/-! ## Claim C9 -/

/-- C9: `download` resets the cancellation flag before transferring any data
(line 63), so a `cancel()` issued before the call is ignored: the call
behaves identically whether or not the flag was set beforehand, and when no
in-transfer cancel, no write failure and no request failure occur it runs to
completion with a normal return. -/
theorem c9_pre_cancel_ignored (d : Downloader) (version : String)
    (request : Option (Nat × List (List Nat))) (initFile : Option (List Nat))
    (cAt wAt : Option Nat) :
    (d.cancel.download version request initFile cAt wAt =
      d.download version request initFile cAt wAt) ∧
    (∀ total chunks, request = some (total, chunks) →
      (d.cancel.download version request initFile none none).2.outcome = .ok) := by
  constructor
  · rcases d with ⟨dp, ic⟩
    rfl
  · intro total chunks hreq
    subst hreq
    rw [show d.cancel.download version (some (total, chunks)) initFile none none =
        d.download version (some (total, chunks)) initFile none none from by
      rcases d with ⟨dp, ic⟩; rfl]
    rw [download_snd]
    obtain ⟨p', hp'⟩ := dlLoop_success total chunks 0 none [] 0 []
      (fun k hk => Option.noConfusion hk)
    rw [hp']

/-- Witness for C9: with the flag set by a prior `cancel()`, a download whose
transfer sees no cancel or failure still completes normally. -/
theorem c9_pre_cancel_ignored_witness :
    ((Downloader.cancel ⟨none, false⟩).download "3.13.0" (some (4, [[9]])) none
        none none).2.outcome = .ok :=
  (c9_pre_cancel_ignored ⟨none, false⟩ "3.13.0" (some (4, [[9]])) none none
    none).2 4 [[9]] rfl

/-! ## SHA-256 (for `Downloader.verify_download`)

The hash computed by `hashlib.sha256` over the whole file, implemented on
`Nat` with explicit reduction mod 2^32 (FIPS 180-4).  Words are big-endian;
the digest is rendered as 64 lowercase hex characters, as `hexdigest()`
does. -/

def M32 : Nat := 4294967296

def rotr32 (n x : Nat) : Nat := ((x >>> n) ||| (x <<< (32 - n))) % M32

def shaCh (x y z : Nat) : Nat := (x &&& y) ^^^ ((x ^^^ 4294967295) &&& z)

def shaMaj (x y z : Nat) : Nat := (x &&& y) ^^^ (x &&& z) ^^^ (y &&& z)

def bigS0 (x : Nat) : Nat := rotr32 2 x ^^^ rotr32 13 x ^^^ rotr32 22 x

def bigS1 (x : Nat) : Nat := rotr32 6 x ^^^ rotr32 11 x ^^^ rotr32 25 x

def smallS0 (x : Nat) : Nat := rotr32 7 x ^^^ rotr32 18 x ^^^ (x >>> 3)

def smallS1 (x : Nat) : Nat := rotr32 17 x ^^^ rotr32 19 x ^^^ (x >>> 10)

/-- The 64 SHA-256 round constants. -/
def shaK : List Nat :=
  [1116352408, 1899447441, 3049323471, 3921009573,
   961987163, 1508970993, 2453635748, 2870763221,
   3624381080, 310598401, 607225278, 1426881987,
   1925078388, 2162078206, 2614888103, 3248222580,
   3835390401, 4022224774, 264347078, 604807628,
   770255983, 1249150122, 1555081692, 1996064986,
   2554220882, 2821834349, 2952996808, 3210313671,
   3336571891, 3584528711, 113926993, 338241895,
   666307205, 773529912, 1294757372, 1396182291,
   1695183700, 1986661051, 2177026350, 2456956037,
   2730485921, 2820302411, 3259730800, 3345764771,
   3516065817, 3600352804, 4094571909, 275423344,
   430227734, 506948616, 659060556, 883997877,
   958139571, 1322822218, 1537002063, 1747873779,
   1955562222, 2024104815, 2227730452, 2361852424,
   2428436474, 2756734187, 3204031479, 3329325298]

/-- The eight 32-bit working variables of the compression function. -/
structure Sha256State where
  a : Nat
  b : Nat
  c : Nat
  d : Nat
  e : Nat
  f : Nat
  g : Nat
  h : Nat

/-- Big-endian byte rendering of `n` in `k` bytes. -/
def toBytesBE : Nat → Nat → List Nat
  | 0, _ => []
  | k + 1, n => toBytesBE k (n / 256) ++ [n % 256]

/-- FIPS 180-4 padding: 0x80, zeros to 56 mod 64, 8-byte bit length. -/
def padMessage (msg : List Nat) : List Nat :=
  msg ++ 128 :: (List.replicate ((119 - msg.length % 64) % 64) 0 ++ toBytesBE 8 (msg.length * 8))

/-- Big-endian 32-bit words from bytes. -/
def bytesToWords : List Nat → List Nat
  | b0 :: b1 :: b2 :: b3 :: rest =>
    (((b0 * 256 + b1) * 256 + b2) * 256 + b3) :: bytesToWords rest
  | _ => []

/-- Split the word stream into 16-word blocks. -/
def wordBlocks : List Nat → List (List Nat)
  | [] => []
  | w :: rest => ((w :: rest).take 16) :: wordBlocks ((w :: rest).drop 16)
termination_by l => l.length
decreasing_by simp; omega

/-- Extend the message schedule; the accumulator holds the words most recent
first, so indices 1, 6, 14, 15 are w[t-2], w[t-7], w[t-15], w[t-16]. -/
def extendW : List Nat → Nat → List Nat
  | rev, 0 => rev
  | rev, fuel + 1 =>
    extendW ((smallS1 (rev.getD 1 0) + rev.getD 6 0 + smallS0 (rev.getD 14 0) +
      rev.getD 15 0) % M32 :: rev) fuel

/-- The 64 compression rounds. -/
def compressRounds : List Nat → List Nat → Sha256State → Sha256State
  | k :: ks, w :: ws, s =>
    let t1 := (s.h + bigS1 s.e + shaCh s.e s.f s.g + k + w) % M32
    let t2 := (bigS0 s.a + shaMaj s.a s.b s.c) % M32
    compressRounds ks ws ⟨(t1 + t2) % M32, s.a, s.b, s.c, (s.d + t1) % M32, s.e, s.f, s.g⟩
  | _, _, s => s

/-- Process one 16-word block and add the result into the chaining state. -/
def processBlock (st : Sha256State) (block : List Nat) : Sha256State :=
  let ws := (extendW block.reverse 48).reverse
  let r := compressRounds shaK ws st
  ⟨(st.a + r.a) % M32, (st.b + r.b) % M32, (st.c + r.c) % M32, (st.d + r.d) % M32,
   (st.e + r.e) % M32, (st.f + r.f) % M32, (st.g + r.g) % M32, (st.h + r.h) % M32⟩

/-- The eight 32-bit words of the SHA-256 digest of a byte sequence. -/
def sha256Words (msg : List Nat) : List Nat :=
  let st := (wordBlocks (bytesToWords (padMessage msg))).foldl processBlock
    ⟨1779033703, 3144134277, 1013904242, 2773480762,
     1359893119, 2600822924, 528734635, 1541459225⟩
  [st.a, st.b, st.c, st.d, st.e, st.f, st.g, st.h]

/-- Lowercase hex digit. -/
def hexChar (n : Nat) : Char := if n < 10 then Char.ofNat (48 + n) else Char.ofNat (87 + n)

/-- Eight lowercase hex characters of one 32-bit word, most significant
nibble first. -/
def wordHexChars (w : Nat) : List Char :=
  [hexChar (w / 268435456 % 16), hexChar (w / 16777216 % 16), hexChar (w / 1048576 % 16),
   hexChar (w / 65536 % 16), hexChar (w / 4096 % 16), hexChar (w / 256 % 16),
   hexChar (w / 16 % 16), hexChar (w % 16)]

def sha256HexChars (msg : List Nat) : List Char := (sha256Words msg).flatMap wordHexChars

/-- `hashlib.sha256(bytes).hexdigest()`: the 64-character lowercase hex
rendering of the digest. -/
def sha256Hexdigest (msg : List Nat) : String := ⟨sha256HexChars msg⟩

/-- Python `str.lower()` (ASCII; exact for hex digests, which is what the
code compares). -/
def pyLower (s : String) : String := ⟨s.data.map Char.toLower⟩

/-- Embedding of `Downloader.verify_download` (downloader.py lines 105-131).
The file is `none` when absent; `expected_hash` is the optional argument.
The Python truthiness test `if expected_hash:` skips the hash comparison for
`None` and for the empty string alike; the comparison itself is
`sha256.hexdigest().lower() == expected_hash.lower()`. -/
def verify_download (file : Option (List Nat)) (expected_hash : Option String) : Bool :=
  match file with
  | none => false
  | some bs =>
    if bs.length = 0 then false
    else
      match expected_hash with
      | some h =>
        if h.data = [] then true
        else pyLower (sha256Hexdigest bs) == pyLower h
      | none => true

/-! ## Claim C3 -/

lemma sha256HexChars_length (msg : List Nat) : (sha256HexChars msg).length = 64 := rfl

/-- C3 as stated is false at a concrete input: for a non-empty file and the
supplied hash string `""`, `verify_download` returns `true` (the truthiness
test `if expected_hash:` treats the empty string like `None` and skips the
comparison), yet the SHA-256 hex digest of the file — 64 characters long —
never equals `""` under case-insensitive comparison. -/
theorem c3_counterexample_empty_hash_string :
    verify_download (some [0]) (some "") = true ∧
    pyLower (sha256Hexdigest [0]) ≠ pyLower "" := by
  constructor
  · rfl
  · intro heq
    have h1 : (pyLower (sha256Hexdigest [0])).data.length = 64 := by
      show ((sha256HexChars [0]).map Char.toLower).length = 64
      rw [List.length_map, sha256HexChars_length]
    rw [heq] at h1
    simp [pyLower] at h1

/-- C3 amended: for every path and every supplied non-empty hash string,
`verify_download` returns true if and only if the SHA-256 hex digest of the
file's bytes equals the hash under case-insensitive comparison; for a
missing or zero-length file it returns false regardless of the hash
argument.  (A supplied empty hash string is treated by the code like no hash
at all: the existence/non-emptiness check alone decides.) -/
theorem c3_amended_verify_sha256 (file : Option (List Nat)) (hash : Option String) :
    (file = none → verify_download file hash = false) ∧
    (file = some [] → verify_download file hash = false) ∧
    (∀ bs hs, file = some bs → bs ≠ [] → hash = some hs → hs.data ≠ [] →
      (verify_download file hash = true ↔
        pyLower (sha256Hexdigest bs) = pyLower hs)) := by
  refine ⟨?_, ?_, ?_⟩
  · intro h
    subst h
    rfl
  · intro h
    subst h
    cases hash with
    | none => rfl
    | some hs => rfl
  · intro bs hs hf hbs hh hhd
    subst hf
    subst hh
    show (if bs.length = 0 then false
      else if hs.data = [] then true
      else pyLower (sha256Hexdigest bs) == pyLower hs) = true ↔ _
    rw [if_neg (by simpa using hbs), if_neg hhd]
    exact beq_iff_eq

/-- Witness for the amended C3 at a concrete input: the one-byte file `[0]`
against the non-empty hash "ff". -/
theorem c3_amended_verify_witness :
    verify_download (some [0]) (some "ff") = true ↔
      pyLower (sha256Hexdigest [0]) = pyLower "ff" :=
  (c3_amended_verify_sha256 (some [0]) (some "ff")).2.2 [0] "ff" rfl
    (by decide) rfl (by decide)
